import Mathlib

/-!
Verification of the transformation-algebra and planar-manipulator core of the
robotics_labs repository.  Python classes `SO2`, `SE2`, `SO3` and
`PlanarManipulator` are shallowly embedded: numpy float arrays become
functions `Fin n → ℝ` / Mathlib matrices over `ℝ`, and each method becomes a
Lean definition translated line by line from the source.  The silent numpy
division by zero in `SO3.exp` (which produces a NaN matrix, a value outside
the real numbers) is modelled by an `Option` result; everywhere else the
source performs no division by zero on the inputs the claims exercise.
-/

noncomputable section

/-- Planar vectors: the embedding of numpy arrays of shape (2,). -/
abbrev Vec2 : Type := Fin 2 → ℝ

/-- Planar matrices: the embedding of numpy arrays of shape (2,2). -/
abbrev Mat2 : Type := Matrix (Fin 2) (Fin 2) ℝ

/-- Spatial vectors: the embedding of numpy arrays of shape (3,). -/
abbrev Vec3 : Type := Fin 3 → ℝ

/-- Spatial matrices: the embedding of numpy arrays of shape (3,3). -/
abbrev Mat3 : Type := Matrix (Fin 3) (Fin 3) ℝ

/-- Python `np.sign` on real scalars: `-1` for negatives, `1` for positives, `0` at `0`. -/
def npSign (x : ℝ) : ℝ := if x < 0 then -1 else if 0 < x then 1 else 0

/-- Embedding of the Python class `SO2` (src/robotics_toolbox/core/so2.py):
a 2D rotation represented by its rotation matrix `rot`. -/
structure SO2 where
  rot : Mat2

namespace SO2

/-- Python `SO2.__init__` on a float argument: `rot = [[cos a, -sin a], [sin a, cos a]]`. -/
def fromAngle (a : ℝ) : SO2 :=
  ⟨Matrix.of ![![Real.cos a, -Real.sin a], ![Real.sin a, Real.cos a]]⟩

/-- Python `SO2.__mul__`: compose two rotations, `self.rot @ other.rot`. -/
def mul (a b : SO2) : SO2 := ⟨a.rot * b.rot⟩

instance : Mul SO2 := ⟨mul⟩

/-- Python `SO2.angle` property: `np.arccos(rot[0][0]) * np.sign(rot[1][0])`. -/
def angle (a : SO2) : ℝ := Real.arccos (a.rot 0 0) * npSign (a.rot 1 0)

/-- Python `SO2.inverse`: the transpose of the rotation matrix. -/
def inverse (a : SO2) : SO2 := ⟨a.rot.transpose⟩

/-- Python `SO2.act`: rotate a 2-vector, `rot @ v`. -/
def act (a : SO2) (v : Vec2) : Vec2 := a.rot.mulVec v

/-- The identity rotation `SO2()` (float argument defaulting to `0.0`). -/
def idRot : SO2 := fromAngle 0

end SO2

/-- The Python value passed as the `rotation` argument of `SE2.__init__`.
The constructor dispatches on the runtime type: an `SO2` instance, a float,
or anything else (`None`, an `int`, ...) which silently falls through to the
`else` branch. -/
inductive RotArg where
  | so2 (r : SO2)
  | float (x : ℝ)
  | int (n : ℤ)
  | none

/-- Embedding of the Python class `SE2` (src/robotics_toolbox/core/se2.py):
a planar rigid transform with fields `translation` and `rotation`. -/
structure SE2 where
  translation : Vec2
  rotation : SO2

namespace SE2

/-- Python `SE2.__init__`: translation defaults to zeros; the rotation argument is
dispatched by `isinstance`: an `SO2` is stored as is, a `float` is converted
through the `SO2` constructor, and any other value (including `None` and
Python `int`s) falls to the `else` branch which stores the identity `SO2()`. -/
def init (translation : Option Vec2) (rotation : RotArg) : SE2 :=
  { translation := translation.getD (fun _ => 0)
    rotation :=
      match rotation with
      | .so2 r => r
      | .float x => SO2.fromAngle x
      | .int _ => SO2.idRot
      | .none => SO2.idRot }

/-- Python `SE2.__mul__`: translation `self.rotation.rot @ other.translation +
self.translation`, rotation `self.rotation * other.rotation`. -/
def mul (a b : SE2) : SE2 :=
  ⟨a.rotation.rot.mulVec b.translation + a.translation, a.rotation * b.rotation⟩

instance : Mul SE2 := ⟨mul⟩

/-- Python `SE2.act`: `self.rotation.rot @ v + self.translation`. -/
def act (a : SE2) (v : Vec2) : Vec2 := a.rotation.rot.mulVec v + a.translation

/-- The identity transform `SE2(None, None)`. -/
def idT : SE2 := init Option.none RotArg.none

end SE2

end

noncomputable section

/-- Embedding of the Python class `SO3` (src/robotics_toolbox/core/so3.py):
a 3D rotation represented by its rotation matrix `rot`. -/
structure SO3 where
  rot : Mat3

namespace SO3

/-- Python `SO3.to_skew_symmetric`: `[[0, v_z, -v_y], [-v_z, 0, v_x], [v_y, -v_x, 0]]`
(note: this is the negative of the conventional cross-product matrix; the
sign is compensated inside `rodriguez`). -/
def to_skew_symmetric (v : Vec3) : Mat3 :=
  Matrix.of ![![0, v 2, -v 1], ![-v 2, 0, v 0], ![v 1, -v 0, 0]]

/-- Python `SO3.from_skew_symmetric`: reads `[m[2][1], m[0][2], m[1][0]]`. -/
def from_skew_symmetric (m : Mat3) : Vec3 := ![m 2 1, m 0 2, m 1 0]

/-- Python `SO3.rodriguez`: `I + (-1·sin angle)·S + (1-cos angle)·(S @ S)` for
`S = to_skew_symmetric axis`. -/
def rodriguez (axis : Vec3) (angle : ℝ) : Mat3 :=
  let scew_symmetric := to_skew_symmetric axis
  1 + (-1 * Real.sin angle) • scew_symmetric
    + (1 - Real.cos angle) • (scew_symmetric * scew_symmetric)

/-- Python `np.linalg.norm` of a 3-vector. -/
def norm3 (v : Vec3) : ℝ := Real.sqrt (v 0 ^ 2 + v 1 ^ 2 + v 2 ^ 2)

/-- Python `SO3.exp`: `angle = ‖v‖`, `axis = v · (1/angle)`, Rodrigues formula.
The source has no zero-norm special case: at `angle = 0` numpy evaluates
`1/0 = inf` and `0 * inf = nan`, so the produced matrix is a NaN matrix — a
value outside the real numbers, modelled here by `none`. -/
def exp (rot_vector : Vec3) : Option SO3 :=
  let angle := norm3 rot_vector
  if angle = 0 then none
  else some ⟨rodriguez ((1 / angle) • rot_vector) angle⟩

/-- Python `SO3.angle_from_rot`: `0` for the identity matrix, `π` when the trace is
`-1`, otherwise `arccos((1/2)(trace - 1))`. -/
def angle_from_rot (a : SO3) : ℝ :=
  if a.rot = 1 then 0
  else if Matrix.trace a.rot = -1 then Real.pi
  else Real.arccos ((1 / 2) * (Matrix.trace a.rot - 1))

/-- Python `SO3.axis_from_rot`: zero vector for the identity; at `angle = π` the
axis is recovered from the largest safe diagonal entry (indices (2,2), then
(1,1), then (0,0)); otherwise (including the unreachable fall-through of the
π-branch) the skew-symmetric part `(R - Rᵀ)/(2 sin angle)` is read off and
scaled by the angle. -/
def axis_from_rot (a : SO3) : Vec3 :=
  if a.rot = 1 then (fun _ => 0)
  else
    let angle := angle_from_rot a
    if angle = Real.pi then
      if a.rot 2 2 ≠ -1 then
        fun i =>
          (1 / Real.sqrt (2 * (a.rot 2 2 + 1)))
            * (![a.rot 0 2, a.rot 1 2, a.rot 2 2 + 1] i) * angle
      else if a.rot 1 1 ≠ -1 then
        fun i =>
          (1 / Real.sqrt (2 * (a.rot 1 1 + 1)))
            * (![a.rot 0 1, a.rot 1 1 + 1, a.rot 2 1] i) * angle
      else if a.rot 0 0 ≠ -1 then
        fun i =>
          (1 / Real.sqrt (2 * (a.rot 0 0 + 1)))
            * (![a.rot 0 0 + 1, a.rot 1 0, a.rot 2 0] i) * angle
      else
        fun i =>
          from_skew_symmetric ((1 / (2 * Real.sin angle)) • (a.rot - a.rot.transpose)) i
            * angle
    else
      fun i =>
        from_skew_symmetric ((1 / (2 * Real.sin angle)) • (a.rot - a.rot.transpose)) i
          * angle

/-- Python `SO3.log`: zero vector for the identity matrix, otherwise `axis_from_rot`. -/
def log (a : SO3) : Vec3 := if a.rot = 1 then (fun _ => 0) else axis_from_rot a

end SO3

end

/-! ### Basic unfolding lemmas -/

noncomputable section

/-- A line segment between two planar points (the embedding of a shapely
`LineString([a, b])`). -/
abbrev Seg : Type := Vec2 × Vec2

/-- The point of a segment at parameter `t ∈ [0, 1]`. -/
def segPt (s : Seg) (t : ℝ) : Vec2 := fun i => s.1 i + t * (s.2 i - s.1 i)

/-- Two closed segments intersect: a common point reached at parameters in
`[0, 1]` (the semantics of the shapely `intersects` for line strings). -/
def segIntersects (s1 s2 : Seg) : Prop :=
  ∃ t u : ℝ, 0 ≤ t ∧ t ≤ 1 ∧ 0 ≤ u ∧ u ≤ 1 ∧ segPt s1 t = segPt s2 u

/-- Two collections of segments intersect when any pair of components does
(shapely `intersects` on `MultiLineString`s). -/
def linesIntersect (l1 l2 : List Seg) : Prop :=
  ∃ s1 ∈ l1, ∃ s2 ∈ l2, segIntersects s1 s2

/-- Embedding of the Python class `PlanarManipulator`
(src/robotics_toolbox/robots/planar_manipulator.py).  The Python attribute
`structure` is a Lean keyword, so the field is named `structure'`; the
`obstacles` attribute is external shapely geometry consumed only through its
`intersects` predicate, modelled as an optional collection of segments. -/
structure PlanarManipulator where
  link_parameters : List ℝ
  structure' : List String
  base_pose : SE2
  gripper_length : ℝ
  q : List ℝ
  gripper_opening : ℝ
  q_min : List ℝ
  q_max : List ℝ
  obstacles : Option (List Seg)

namespace PlanarManipulator

/-- Python `PlanarManipulator.__init__` with its default values:
`link_parameters = [0.5]*3`, `structure = ["R"]*n`, identity base pose,
`q = [π/8]*n`, `gripper_opening = 0.2`, `q_min/q_max = ∓π`, no obstacles. -/
def init (link_parameters : Option (List ℝ)) (structure0 : Option (List String))
    (base_pose : Option SE2) (gripper_length : ℝ) : PlanarManipulator :=
  let lp := link_parameters.getD [0.5, 0.5, 0.5]
  let n := lp.length
  { link_parameters := lp
    structure' := structure0.getD (List.replicate n "R")
    base_pose := base_pose.getD (SE2.init Option.none RotArg.none)
    gripper_length := gripper_length
    q := List.replicate n (Real.pi / 8)
    gripper_opening := 0.2
    q_min := List.replicate n (-Real.pi)
    q_max := List.replicate n Real.pi
    obstacles := Option.none }

/-- Python `joint_count` property: `len(self.structure)`. -/
def joint_count (m : PlanarManipulator) : ℕ := m.structure'.length

/-- Python `set_configuration`: overwrite `q`. -/
def set_configuration (m : PlanarManipulator) (configuration : List ℝ) :
    PlanarManipulator := { m with q := configuration }

/-- Python `PlanarManipulator.get_se2_for_rotation_joint`:
`SE2(SO2(rotation).act([link_length, 0]), rotation)`. -/
def get_se2_for_rotation_joint (rotation link_length : ℝ) : SE2 :=
  SE2.init (some ((SO2.fromAngle rotation).act ![link_length, 0]))
    (RotArg.float rotation)

/-- Python `PlanarManipulator.get_se2_for_prismatic_joint`:
`SE2(SO2(initial_rotation).act([extension, 0]), initial_rotation)`. -/
def get_se2_for_prismatic_joint (extension initial_rotation : ℝ) : SE2 :=
  SE2.init (some ((SO2.fromAngle initial_rotation).act ![extension, 0]))
    (RotArg.float initial_rotation)

/-- Python `get_transformation_from_joint`: reads `q[i]`, `link_parameters[i]` and
the joint type tag, dispatching on `"R"` (anything else is prismatic).  The
method is only called with indices below `joint_count`, where the list
accesses are in range. -/
def get_transformation_from_joint (m : PlanarManipulator) (joint_index : ℕ) : SE2 :=
  let q := m.q.getD joint_index 0
  let param := m.link_parameters.getD joint_index 0
  let joint_type := m.structure'.getD joint_index ""
  if joint_type = "R" then get_se2_for_rotation_joint q param
  else get_se2_for_prismatic_joint q param

/-- Python `__reduce_transformations`: `reduce(*, transformations, base)`, a left
fold of the group composition seeded at `base`. -/
def reduce_transformations (transformations : List SE2) (base : SE2) : SE2 :=
  transformations.foldl (fun se2_accumulator se2 => se2_accumulator * se2) base

/-- Python `flange_pose`: compose all joint transforms onto the base pose. -/
def flange_pose (m : PlanarManipulator) : SE2 :=
  reduce_transformations
    ((List.range m.joint_count).map m.get_transformation_from_joint) m.base_pose

/-- Python `fk_all_links`: the base frame followed by the cumulative compositions of
the first `k+1` joint transforms, `k = 0..n-1`. -/
def fk_all_links (m : PlanarManipulator) : List SE2 :=
  m.base_pose ::
    (List.range m.joint_count).map (fun frame_index =>
      reduce_transformations
        ((List.range (frame_index + 1)).map m.get_transformation_from_joint)
        m.base_pose)

/-- the numpy `transpose` on a rectangular list-of-rows array. -/
def np_transpose (rows : List (List ℝ)) : List (List ℝ) :=
  (List.range (rows.headD []).length).map (fun j => rows.map (fun r => r.getD j 0))

/-- Python `jacobian`: one column per joint — for a prismatic joint the world-frame
direction of translation with angular part `0`; for a revolute joint the
lever arm from joint `i` to the end effector rotated by 90° and expressed in
the world frame, with angular part `1` — assembled then transposed to
shape (3, n). -/
def jacobian (m : PlanarManipulator) : List (List ℝ) :=
  let joint_transforms := (List.range m.joint_count).map m.get_transformation_from_joint
  let fk := fk_all_links m
  let jac := (List.range m.joint_count).map (fun index =>
    if m.structure'.getD index "" = "P" then
      let jac_col := (fk.getD (index + 1) SE2.idT).rotation.act ![1, 0]
      [jac_col 0, jac_col 1, 0]
    else
      let T_je := reduce_transformations (joint_transforms.drop index) SE2.idT
      let t_je := T_je.translation
      let n := (SO2.fromAngle (Real.pi / 2)).act t_je
      let n_s := (fk.getD index SE2.idT).rotation.act n
      [n_s 0, n_s 1, 1])
  np_transpose jac

/-- Python `__finite_difference` (value-level view): perturb a configuration of the copy
by `delta_vector`, recompute the flange pose and difference the selected
coordinate.  (See the store-threaded variant below for the mutation claim.) -/
def finite_difference (m : PlanarManipulator) (delta : ℝ) (delta_vector : List ℝ)
    (selector_function : SE2 → ℝ) : ℝ :=
  let copy_robot := { m with q := List.zipWith (· + ·) m.q delta_vector }
  (selector_function (flange_pose copy_robot) - selector_function (flange_pose m)) / delta

/-- Python `jacobian_finite_difference`: rows for x, y and the rotation angle, one
finite difference per joint. -/
def jacobian_finite_difference (m : PlanarManipulator) (delta : ℝ) : List (List ℝ) :=
  let to_delta_vector := fun q_i =>
    (List.range m.joint_count).map (fun q => if q = q_i then delta else 0)
  [fun t : SE2 => t.translation 0, fun t : SE2 => t.translation 1,
      fun t : SE2 => t.rotation.angle].map
    (fun selector =>
      (List.range m.joint_count).map (fun q_i =>
        finite_difference m delta (to_delta_vector q_i) selector))

/-- Python `_gripper_lines`: the three gripper segments attached to the flange. -/
def gripper_lines (m : PlanarManipulator) (flange : SE2) : Seg × Seg × Seg :=
  let gripper_opening := m.gripper_opening / 2
  (((flange * SE2.init (some ![0, -gripper_opening]) RotArg.none).translation,
    (flange * SE2.init (some ![0, gripper_opening]) RotArg.none).translation),
   ((flange * SE2.init (some ![0, -gripper_opening]) RotArg.none).translation,
    (flange * SE2.init (some ![m.gripper_length, -gripper_opening]) RotArg.none).translation),
   ((flange * SE2.init (some ![0, gripper_opening]) RotArg.none).translation,
    (flange * SE2.init (some ![m.gripper_length, gripper_opening]) RotArg.none).translation))

/-- Python `in_collision`: segments between consecutive link origins (the last link
segment grouped with the three gripper segments into one multi-line), then
any pair of components at index distance ≥ 2 intersecting means
self-collision; otherwise all segments are tested against the external
obstacles.  `shapely.intersects(None)` is `False`, so absent obstacles
contribute nothing. -/
def in_collision (m : PlanarManipulator) : Prop :=
  let frames := fk_all_links m
  let points := frames.map (fun f => f.translation)
  let gl := gripper_lines m (frames.getLastD SE2.idT)
  let links : List (List Seg) :=
    (List.zip points.dropLast.dropLast (points.drop 1).dropLast).map (fun p => [p])
      ++ [[gl.1, gl.2.1, gl.2.2,
           (points.getD (points.length - 2) (fun _ => 0),
            points.getD (points.length - 1) (fun _ => 0))]]
  (∃ i j : ℕ, j < links.length ∧ i + 2 ≤ j ∧
      linesIntersect (links.getD i []) (links.getD j []))
    ∨ (match m.obstacles with
       | Option.none => False
       | some obs =>
          linesIntersect
            ([gl.1, gl.2.1, gl.2.2] ++ List.zip points.dropLast (points.drop 1)) obs)

end PlanarManipulator

/-- A Python value as the `structure` attribute may hold it at runtime:
either a string or a list of strings.  Python `==` between values of
different types is `False`. -/
inductive PyVal where
  | str (s : String)
  | list (l : List String)

/-- Python equality between such values: equal only within the same type. -/
def pyEq : PyVal → PyVal → Bool
  | .str a, .str b => a == b
  | .list a, .list b => a == b
  | _, _ => false

/-- Python `ik_analytical`: asserts `self.structure in ("RRR", "PRR")` — tuple
membership tested with Python `==` — then (the IK body being an unfinished
todo) returns the empty solution list.  A failed assert raises
`AssertionError`, modelled as `Except.error` with the assert message. -/
def PlanarManipulator.ik_analytical (m : PlanarManipulator)
    (flange_pose_desired : SE2) : Except String (List (List ℝ)) :=
  if pyEq (PyVal.list m.structure') (PyVal.str "RRR")
      || pyEq (PyVal.list m.structure') (PyVal.str "PRR")
  then Except.ok []
  else Except.error "Only RRR or PRR structure is supported"

end

noncomputable section

/-- The concrete 3-revolute manipulator of the claim scenarios:
`PlanarManipulator(link_parameters=[l1,l2,l3], structure=["R","R","R"])` with
configuration `[a, b, c]` (defaults for base pose and gripper length). -/
def mk3R (l1 l2 l3 a b c : ℝ) : PlanarManipulator :=
  (PlanarManipulator.init (some [l1, l2, l3]) (some ["R", "R", "R"])
      Option.none 0.2).set_configuration [a, b, c]

end

noncomputable section

/-- The heap for the mutation claim: the Python `q` arrays live in cells
addressed by allocation order; `deepcopy` allocates a fresh cell, and the
assignment `copy_robot.q = ...` writes only the cell of the copy. -/
abbrev Store : Type := List (List ℝ)

/-- A manipulator object whose `q` attribute is a reference into the store
(the other attributes are never assigned by the differencing code). -/
structure HRobot where
  link_parameters : List ℝ
  structure' : List String
  base_pose : SE2
  gripper_length : ℝ
  gripper_opening : ℝ
  qRef : ℕ

/-- Dereference a robot configuration cell. -/
def readQ (s : Store) (r : ℕ) : List ℝ := s.getD r []

/-- The value-level manipulator seen by a robot object under a store. -/
def toPM (r : HRobot) (s : Store) : PlanarManipulator :=
  { link_parameters := r.link_parameters, structure' := r.structure',
    base_pose := r.base_pose, gripper_length := r.gripper_length,
    q := readQ s r.qRef, gripper_opening := r.gripper_opening,
    q_min := [], q_max := [], obstacles := Option.none }

/-- Python `deepcopy(self)`: a fresh cell holding an independent copy of `q`. -/
def deepcopy (r : HRobot) (s : Store) : HRobot × Store :=
  ({ r with qRef := s.length }, s ++ [readQ s r.qRef])

/-- Python `__finite_difference` over the store: deep-copy, perturb the cell of the copy,
then read both flange poses (the original from its own, untouched cell). -/
def finite_difference_st (r : HRobot) (delta : ℝ) (delta_vector : List ℝ)
    (selector_function : SE2 → ℝ) (s : Store) : ℝ × Store :=
  let rs := deepcopy r s
  let copy_robot := rs.1
  let s1 := rs.2
  let s2 := s1.set copy_robot.qRef
    (List.zipWith (· + ·) (readQ s1 copy_robot.qRef) delta_vector)
  ((selector_function ((toPM copy_robot s2).flange_pose)
      - selector_function ((toPM r s2).flange_pose)) / delta, s2)

/-- One row of `jacobian_finite_difference`, threading the store through the
per-joint finite differences. -/
def fd_row_st (r : HRobot) (delta : ℝ) (sel : SE2 → ℝ) :
    List ℕ → Store → List ℝ × Store
  | [], s => ([], s)
  | q_i :: rest, s =>
      let dv := (List.range r.structure'.length).map (fun q => if q = q_i then delta else 0)
      let vs := finite_difference_st r delta dv sel s
      let tail := fd_row_st r delta sel rest vs.2
      (vs.1 :: tail.1, tail.2)

/-- The three selector rows of `jacobian_finite_difference`. -/
def fd_rows_st (r : HRobot) (delta : ℝ) :
    List (SE2 → ℝ) → Store → List (List ℝ) × Store
  | [], s => ([], s)
  | sel :: rest, s =>
      let row := fd_row_st r delta sel (List.range r.structure'.length) s
      let tail := fd_rows_st r delta rest row.2
      (row.1 :: tail.1, tail.2)

/-- Python `jacobian_finite_difference` over the store: x, y and angle rows. -/
def jacobian_finite_difference_st (r : HRobot) (delta : ℝ) (s : Store) :
    List (List ℝ) × Store :=
  fd_rows_st r delta
    [fun t => t.translation 0, fun t => t.translation 1, fun t => t.rotation.angle] s

end

/-! ### Unfolding lemmas and theorems -/

theorem SO2.mul_rot (a b : SO2) : (a * b).rot = a.rot * b.rot := rfl

theorem SE2.mul_translation (a b : SE2) :
    (a * b).translation = a.rotation.rot.mulVec b.translation + a.translation := rfl

theorem SE2.mul_rotation (a b : SE2) : (a * b).rotation = a.rotation * b.rotation := rfl

theorem SO2.fromAngle_rot_00 (a : ℝ) : (SO2.fromAngle a).rot 0 0 = Real.cos a := rfl

theorem SO2.fromAngle_rot_10 (a : ℝ) : (SO2.fromAngle a).rot 1 0 = Real.sin a := rfl


namespace SO3

/-- The nine entries of the Rodrigues matrix, written in terms of the axis
components and the sine/cosine of the angle. -/
theorem rodriguez_apply (a : Vec3) (t : ℝ) :
    rodriguez a t 0 0 = 1 - (1 - Real.cos t) * (a 1 ^ 2 + a 2 ^ 2) ∧
    rodriguez a t 1 1 = 1 - (1 - Real.cos t) * (a 0 ^ 2 + a 2 ^ 2) ∧
    rodriguez a t 2 2 = 1 - (1 - Real.cos t) * (a 0 ^ 2 + a 1 ^ 2) ∧
    rodriguez a t 2 1 = Real.sin t * a 0 + (1 - Real.cos t) * (a 1 * a 2) ∧
    rodriguez a t 1 2 = -(Real.sin t * a 0) + (1 - Real.cos t) * (a 1 * a 2) ∧
    rodriguez a t 0 2 = Real.sin t * a 1 + (1 - Real.cos t) * (a 0 * a 2) ∧
    rodriguez a t 2 0 = -(Real.sin t * a 1) + (1 - Real.cos t) * (a 0 * a 2) ∧
    rodriguez a t 1 0 = Real.sin t * a 2 + (1 - Real.cos t) * (a 0 * a 1) ∧
    rodriguez a t 0 1 = -(Real.sin t * a 2) + (1 - Real.cos t) * (a 0 * a 1) := by
  refine ⟨?_, ?_, ?_, ?_, ?_, ?_, ?_, ?_, ?_⟩ <;>
    · simp [rodriguez, to_skew_symmetric, Matrix.add_apply, Matrix.smul_apply,
        Matrix.mul_apply, Matrix.one_apply, Fin.sum_univ_three,
        Matrix.cons_val_zero, Matrix.cons_val_one, Matrix.cons_val_two,
        Matrix.head_cons, Matrix.vecHead, Matrix.vecTail, -mul_eq_mul_left_iff]
      try ring

/-! ### Claims C1 and C2: exponential and logarithm of `SO3` -/

/-- C1 (amended): for every 3-vector `v` with `0 < ‖v‖ < π`, the logarithm of
`SO3.exp v` is exactly `v`.  The lower bound `0 < ‖v‖` is forced by the
counterexample: at `v = 0` the source divides by the zero norm and returns a
NaN matrix instead of the identity. -/
theorem C1_exp_log_roundtrip (v : Vec3) (h0 : 0 < norm3 v)
    (hpi : norm3 v < Real.pi) : (exp v).map log = some v := by
  have hθ0 : norm3 v ≠ 0 := ne_of_gt h0
  set θ := norm3 v with hθdef
  set a : Vec3 := (1 / θ) • v with hadef
  have hnn : (0:ℝ) ≤ v 0 ^ 2 + v 1 ^ 2 + v 2 ^ 2 := by positivity
  have hsum : v 0 ^ 2 + v 1 ^ 2 + v 2 ^ 2 = θ ^ 2 := by
    rw [hθdef]
    unfold norm3
    rw [Real.sq_sqrt hnn]
  have ha0 : a 0 = (1 / θ) * v 0 := rfl
  have ha1 : a 1 = (1 / θ) * v 1 := rfl
  have ha2 : a 2 = (1 / θ) * v 2 := rfl
  have hunit : a 0 ^ 2 + a 1 ^ 2 + a 2 ^ 2 = 1 := by
    rw [ha0, ha1, ha2]
    field_simp
    linarith [hsum]
  have hs : 0 < Real.sin θ := Real.sin_pos_of_pos_of_lt_pi h0 hpi
  have hcgt : -1 < Real.cos θ := by
    have h := Real.cos_lt_cos_of_nonneg_of_le_pi h0.le le_rfl hpi
    rw [Real.cos_pi] at h
    exact h
  obtain ⟨hR00, hR11, hR22, hR21, hR12, hR02, hR20, hR10, hR01⟩ := rodriguez_apply a θ
  set R : Mat3 := rodriguez a θ with hRdef
  have hone : ∀ i j : Fin 3, i ≠ j → (1 : Mat3) i j = 0 := by
    intro i j hij
    exact Matrix.one_apply_ne hij
  have hne1 : R ≠ (1 : Mat3) := by
    intro h
    have e21 : R 2 1 = 0 := by rw [h]; exact hone 2 1 (by decide)
    have e12 : R 1 2 = 0 := by rw [h]; exact hone 1 2 (by decide)
    have e02 : R 0 2 = 0 := by rw [h]; exact hone 0 2 (by decide)
    have e20 : R 2 0 = 0 := by rw [h]; exact hone 2 0 (by decide)
    have e10 : R 1 0 = 0 := by rw [h]; exact hone 1 0 (by decide)
    have e01 : R 0 1 = 0 := by rw [h]; exact hone 0 1 (by decide)
    rw [hR21] at e21; rw [hR12] at e12; rw [hR02] at e02
    rw [hR20] at e20; rw [hR10] at e10; rw [hR01] at e01
    have hsa0 : Real.sin θ * a 0 = 0 := by linarith
    have hsa1 : Real.sin θ * a 1 = 0 := by linarith
    have hsa2 : Real.sin θ * a 2 = 0 := by linarith
    have hz0 : a 0 = 0 := by
      rcases mul_eq_zero.mp hsa0 with h' | h'
      · exact absurd h' (ne_of_gt hs)
      · exact h'
    have hz1 : a 1 = 0 := by
      rcases mul_eq_zero.mp hsa1 with h' | h'
      · exact absurd h' (ne_of_gt hs)
      · exact h'
    have hz2 : a 2 = 0 := by
      rcases mul_eq_zero.mp hsa2 with h' | h'
      · exact absurd h' (ne_of_gt hs)
      · exact h'
    rw [hz0, hz1, hz2] at hunit
    norm_num at hunit
  have htr : Matrix.trace R = 1 + 2 * Real.cos θ := by
    rw [Matrix.trace_fin_three, hR00, hR11, hR22]
    linear_combination (2 * (Real.cos θ - 1)) * hunit
  have hangle : angle_from_rot ⟨R⟩ = θ := by
    unfold angle_from_rot
    rw [if_neg hne1, if_neg (by rw [htr]; intro h; linarith)]
    have harg : (1 / 2 : ℝ) * (Matrix.trace R - 1) = Real.cos θ := by
      rw [htr]; ring
    rw [harg]
    exact Real.arccos_cos h0.le hpi.le
  have haxis : axis_from_rot ⟨R⟩ = v := by
    unfold axis_from_rot
    rw [if_neg hne1]
    simp only [hangle]
    rw [if_neg (ne_of_lt hpi)]
    funext i
    fin_cases i <;>
      · simp only [from_skew_symmetric, Matrix.smul_apply, Matrix.sub_apply,
          Matrix.transpose_apply, Matrix.cons_val_zero, Matrix.cons_val_one,
          Matrix.cons_val_two, Matrix.head_cons, Matrix.vecHead, Matrix.vecTail,
          Function.comp, smul_eq_mul, Fin.isValue]
        simp only [show (⟨0, by omega⟩ : Fin 3) = 0 from rfl,
          show (⟨1, by omega⟩ : Fin 3) = 1 from rfl,
          show (⟨2, by omega⟩ : Fin 3) = 2 from rfl,
          hR21, hR12, hR02, hR20, hR10, hR01, ha0, ha1, ha2]
        field_simp
        ring
  have hlog : log ⟨R⟩ = v := by
    unfold log
    rw [if_neg hne1]
    exact haxis
  unfold exp
  rw [if_neg hθ0]
  rw [Option.map_some']
  rw [← hθdef, ← hadef, ← hRdef]
  rw [hlog]

/-- C1 witness: the rotation vector `[1, 0, 0]` has norm `1 < π` and is
recovered exactly by `log` after `exp`. -/
theorem C1_exp_log_roundtrip_witness :
    (0 < norm3 ![1, 0, 0] ∧ norm3 ![1, 0, 0] < Real.pi) ∧
      (exp ![1, 0, 0]).map log = some ![1, 0, 0] := by
  have hn : norm3 ![(1:ℝ), 0, 0] = 1 := by
    unfold norm3
    norm_num
  refine ⟨⟨by rw [hn]; norm_num, by rw [hn]; linarith [Real.pi_gt_three]⟩, ?_⟩
  exact C1_exp_log_roundtrip ![1, 0, 0]
    (by rw [hn]; norm_num) (by rw [hn]; linarith [Real.pi_gt_three])

/-- C1 counterexample: the zero vector has norm `0 < π`, yet the source
function `exp` divides by the zero norm (NaN matrix, modelled by `none`), so
`log(exp(0))` does not return `0`: the claim fails at `v = 0`. -/
theorem C1_counterexample_zero_vector :
    norm3 (fun _ => 0) < Real.pi ∧
      (exp (fun _ => 0)).map log ≠ some (fun _ => (0 : ℝ)) := by
  have hn : norm3 (fun _ => (0:ℝ)) = 0 := by
    unfold norm3
    norm_num
  constructor
  · rw [hn]; exact Real.pi_pos
  · unfold exp
    rw [hn]
    simp

/-- C2: `SO3.exp` applied to the zero vector does not return the identity
rotation: the source has no zero-norm special case, `axis = v * (1/0)` is a
NaN vector in numpy and the resulting matrix is all-NaN (modelled by `none`),
whereas the spec requires the identity. -/
theorem C2_exp_zero_not_identity :
    exp (fun _ => 0) = none := by
  have hn : norm3 (fun _ => (0:ℝ)) = 0 := by
    unfold norm3
    norm_num
  unfold exp
  rw [hn]
  simp

end SO3



/-! ### Evaluation helpers for the planar chain -/

theorem SO2.fromAngle_mul (x y : ℝ) :
    SO2.fromAngle x * SO2.fromAngle y = SO2.fromAngle (x + y) := by
  show SO2.mul _ _ = _
  unfold SO2.mul SO2.fromAngle
  congr 1
  ext i j
  fin_cases i <;> fin_cases j <;>
    · simp [Matrix.mul_apply, Fin.sum_univ_two, Real.cos_add, Real.sin_add]
      try ring

theorem SO2.fromAngle_zero_rot : (SO2.fromAngle 0).rot = 1 := by
  unfold SO2.fromAngle
  ext i j
  fin_cases i <;> fin_cases j <;> simp [Matrix.one_apply]

theorem SO2.act_fromAngle (x : ℝ) (v : Vec2) :
    (SO2.fromAngle x).act v =
      ![Real.cos x * v 0 - Real.sin x * v 1, Real.sin x * v 0 + Real.cos x * v 1] := by
  unfold SO2.act SO2.fromAngle
  have hv0 : Matrix.vecHead v = v 0 := rfl
  have hv1 : Matrix.vecHead (Matrix.vecTail v) = v 1 := rfl
  funext i
  fin_cases i <;>
    · simp [Matrix.mulVec, Matrix.dotProduct, Fin.sum_univ_two, hv0, hv1]
      try ring

theorem SE2.idT_mul (t : SE2) :
    SE2.idT * t = ⟨t.translation, SO2.fromAngle 0 * t.rotation⟩ := by
  show SE2.mul _ _ = _
  unfold SE2.mul SE2.idT SE2.init
  congr 1
  rw [show (SE2.mk (Option.getD Option.none fun _ => 0) SO2.idRot).rotation.rot
      = (SO2.fromAngle 0).rot from rfl]
  rw [SO2.fromAngle_zero_rot, Matrix.one_mulVec]
  funext i
  simp

theorem SE2.rot_chain (t1 t2 : Vec2) (x y : ℝ) :
    (⟨t1, SO2.fromAngle x⟩ : SE2) * ⟨t2, SO2.fromAngle y⟩
      = ⟨fun i => ((SO2.fromAngle x).act t2) i + t1 i, SO2.fromAngle (x + y)⟩ := by
  show SE2.mul _ _ = _
  unfold SE2.mul
  rw [SE2.mk.injEq]
  refine ⟨?_, SO2.fromAngle_mul x y⟩
  funext i
  simp [SO2.act]

/-- Composing a link frame with the next revolute-joint transform advances
the chain: the rotation angles add and the new link offset is rotated into
the world frame. -/
theorem SE2.rot_link_step (t1 : Vec2) (l x y : ℝ) :
    (⟨t1, SO2.fromAngle x⟩ : SE2) * ⟨(SO2.fromAngle y).act ![l, 0], SO2.fromAngle y⟩
      = ⟨![t1 0 + l * Real.cos (x + y), t1 1 + l * Real.sin (x + y)],
          SO2.fromAngle (x + y)⟩ := by
  rw [SE2.rot_chain]
  congr 1
  funext i
  fin_cases i <;>
    · simp [SO2.act_fromAngle, Real.cos_add, Real.sin_add]
      ring


theorem mk3R_frame1 (l1 a : ℝ) :
    SE2.idT * (⟨(SO2.fromAngle a).act ![l1, 0], SO2.fromAngle a⟩ : SE2)
      = ⟨![l1 * Real.cos a, l1 * Real.sin a], SO2.fromAngle a⟩ := by
  rw [SE2.idT_mul, SE2.mk.injEq]
  constructor
  · show (SO2.fromAngle a).act ![l1, 0] = _
    rw [SO2.act_fromAngle]
    funext i
    fin_cases i <;> · simp; try ring
  · show SO2.fromAngle 0 * SO2.fromAngle a = _
    rw [SO2.fromAngle_mul, zero_add]

theorem mk3R_frame2 (l1 l2 a b : ℝ) :
    (⟨![l1 * Real.cos a, l1 * Real.sin a], SO2.fromAngle a⟩ : SE2)
        * ⟨(SO2.fromAngle b).act ![l2, 0], SO2.fromAngle b⟩
      = ⟨![l1 * Real.cos a + l2 * Real.cos (a + b),
           l1 * Real.sin a + l2 * Real.sin (a + b)], SO2.fromAngle (a + b)⟩ := by
  rw [SE2.rot_link_step, SE2.mk.injEq]
  refine ⟨?_, rfl⟩
  funext i
  fin_cases i <;> simp

theorem mk3R_frame3 (l1 l2 l3 a b c : ℝ) :
    (⟨![l1 * Real.cos a + l2 * Real.cos (a + b),
        l1 * Real.sin a + l2 * Real.sin (a + b)], SO2.fromAngle (a + b)⟩ : SE2)
        * ⟨(SO2.fromAngle c).act ![l3, 0], SO2.fromAngle c⟩
      = ⟨![l1 * Real.cos a + l2 * Real.cos (a + b) + l3 * Real.cos (a + b + c),
           l1 * Real.sin a + l2 * Real.sin (a + b) + l3 * Real.sin (a + b + c)],
          SO2.fromAngle (a + b + c)⟩ := by
  rw [SE2.rot_link_step, SE2.mk.injEq]
  refine ⟨?_, rfl⟩
  funext i
  fin_cases i <;> simp

theorem mk3R_flange (l1 l2 l3 a b c : ℝ) :
    (mk3R l1 l2 l3 a b c).flange_pose
      = ⟨![l1 * Real.cos a + l2 * Real.cos (a + b) + l3 * Real.cos (a + b + c),
           l1 * Real.sin a + l2 * Real.sin (a + b) + l3 * Real.sin (a + b + c)],
          SO2.fromAngle (a + b + c)⟩ := by
  have e : (mk3R l1 l2 l3 a b c).flange_pose
      = ((SE2.idT * ⟨(SO2.fromAngle a).act ![l1, 0], SO2.fromAngle a⟩)
          * ⟨(SO2.fromAngle b).act ![l2, 0], SO2.fromAngle b⟩)
          * ⟨(SO2.fromAngle c).act ![l3, 0], SO2.fromAngle c⟩ := rfl
  rw [e, mk3R_frame1, mk3R_frame2, mk3R_frame3]

/-- Evaluation of `fk_all_links` on the 3R chain: base frame and the three cumulative chains. -/
theorem mk3R_fk_all_links (l1 l2 l3 a b c : ℝ) :
    (mk3R l1 l2 l3 a b c).fk_all_links
      = [SE2.idT,
         ⟨![l1 * Real.cos a, l1 * Real.sin a], SO2.fromAngle a⟩,
         ⟨![l1 * Real.cos a + l2 * Real.cos (a + b),
            l1 * Real.sin a + l2 * Real.sin (a + b)], SO2.fromAngle (a + b)⟩,
         ⟨![l1 * Real.cos a + l2 * Real.cos (a + b) + l3 * Real.cos (a + b + c),
            l1 * Real.sin a + l2 * Real.sin (a + b) + l3 * Real.sin (a + b + c)],
           SO2.fromAngle (a + b + c)⟩] := by
  have e : (mk3R l1 l2 l3 a b c).fk_all_links
      = [SE2.idT,
         SE2.idT * ⟨(SO2.fromAngle a).act ![l1, 0], SO2.fromAngle a⟩,
         (SE2.idT * ⟨(SO2.fromAngle a).act ![l1, 0], SO2.fromAngle a⟩)
           * ⟨(SO2.fromAngle b).act ![l2, 0], SO2.fromAngle b⟩,
         ((SE2.idT * ⟨(SO2.fromAngle a).act ![l1, 0], SO2.fromAngle a⟩)
           * ⟨(SO2.fromAngle b).act ![l2, 0], SO2.fromAngle b⟩)
           * ⟨(SO2.fromAngle c).act ![l3, 0], SO2.fromAngle c⟩] := rfl
  rw [e, mk3R_frame1, mk3R_frame2, mk3R_frame3]

/-! ### Claim C4: flange pose of the extended RRR arm -/

/-- C4: `PlanarManipulator(link_parameters=[1,1,1], structure=["R","R","R"])`
with identity base pose and configuration `q = [0,0,0]` has flange
translation `[3, 0]` and flange rotation angle `0` (exactly, in the
real-number model). -/
theorem C4_flange_pose_extended :
    (((PlanarManipulator.init (some [1, 1, 1]) (some ["R", "R", "R"])
          Option.none 0.2).set_configuration [0, 0, 0]).flange_pose.translation 0 = 3
        ∧ ((PlanarManipulator.init (some [1, 1, 1]) (some ["R", "R", "R"])
          Option.none 0.2).set_configuration [0, 0, 0]).flange_pose.translation 1 = 0)
      ∧ ((PlanarManipulator.init (some [1, 1, 1]) (some ["R", "R", "R"])
          Option.none 0.2).set_configuration [0, 0, 0]).flange_pose.rotation.angle = 0 := by
  have e : ((PlanarManipulator.init (some [1, 1, 1]) (some ["R", "R", "R"])
      Option.none 0.2).set_configuration [0, 0, 0]) = mk3R 1 1 1 0 0 0 := rfl
  have h := mk3R_flange 1 1 1 0 0 0
  rw [e, h]
  norm_num
  unfold SO2.angle
  rw [SO2.fromAngle_rot_00, SO2.fromAngle_rot_10, Real.cos_zero, Real.sin_zero,
    Real.arccos_one]
  simp [npSign]

/-! ### Claim C9: `ik_analytical` always fails on list-valued structures -/

/-- C9: for every manipulator whose `structure` field is (as the constructor
documents and establishes) a list of joint tags, `ik_analytical` fails its
`structure in ("RRR", "PRR")` assertion for every desired flange pose: a
Python list never compares equal to a string. -/
theorem C9_ik_analytical_always_asserts (m : PlanarManipulator) (pose : SE2) :
    m.ik_analytical pose = Except.error "Only RRR or PRR structure is supported" := rfl

/-! ### Claim C6: angle extraction of `SO2` -/

/-- C6 (amended): for every angle `θ = r + 2πk` whose reduction `r` modulo
`2π` lies in the open interval `(-π, π)`, `SO2(θ).angle` returns `r`.  (At the
excluded endpoint `r = π` the source returns `0`, see the counterexample.) -/
theorem C6_fromAngle_angle (r : ℝ) (k : ℤ) (h1 : -Real.pi < r) (h2 : r < Real.pi) :
    (SO2.fromAngle (r + 2 * Real.pi * k)).angle = r := by
  have hper : r + 2 * Real.pi * k = r + k * (2 * Real.pi) := by ring
  have hcos : Real.cos (r + 2 * Real.pi * k) = Real.cos r := by
    rw [hper, Real.cos_add_int_mul_two_pi]
  have hsin : Real.sin (r + 2 * Real.pi * k) = Real.sin r := by
    rw [hper, Real.sin_add_int_mul_two_pi]
  unfold SO2.angle
  rw [SO2.fromAngle_rot_00, SO2.fromAngle_rot_10, hcos, hsin]
  rcases lt_trichotomy r 0 with hr | hr | hr
  · have hsneg : Real.sin r < 0 := by
      have : 0 < Real.sin (-r) := Real.sin_pos_of_pos_of_lt_pi (by linarith) (by linarith)
      rw [Real.sin_neg] at this; linarith
    have harc : Real.arccos (Real.cos r) = -r := by
      rw [← Real.cos_neg]
      exact Real.arccos_cos (by linarith) (by linarith)
    rw [harc]
    unfold npSign
    rw [if_pos hsneg]
    ring
  · subst hr
    simp [npSign, Real.arccos_one]
  · have hspos : 0 < Real.sin r := Real.sin_pos_of_pos_of_lt_pi hr h2
    rw [Real.arccos_cos (by linarith) (by linarith)]
    unfold npSign
    rw [if_neg (by linarith), if_pos hspos]
    ring

/-- C6 witness: `θ = π/2 + 2π` reduces to `π/2` and the extracted angle is `π/2`. -/
theorem C6_fromAngle_angle_witness :
    (-Real.pi < Real.pi / 2 ∧ Real.pi / 2 < Real.pi) ∧
      (SO2.fromAngle (Real.pi / 2 + 2 * Real.pi * (1 : ℤ))).angle = Real.pi / 2 :=
  ⟨⟨by linarith [Real.pi_pos], by linarith [Real.pi_pos]⟩,
    C6_fromAngle_angle (Real.pi / 2) 1 (by linarith [Real.pi_pos]) (by linarith [Real.pi_pos])⟩

/-- C6 counterexample: at `θ = π` (whose reduction into `(-π, π]` is `π`
itself) the source computes `arccos(cos π) * sign(sin π) = π * 0 = 0`, not
`π`: the claimed identity fails at the endpoint of the interval. -/
theorem C6_counterexample_pi :
    (SO2.fromAngle Real.pi).angle = 0 ∧ (Real.pi : ℝ) ≠ 0 := by
  constructor
  · unfold SO2.angle
    rw [SO2.fromAngle_rot_00, SO2.fromAngle_rot_10, Real.cos_pi, Real.sin_pi]
    simp [npSign]
  · exact Real.pi_ne_zero

/-! ### Claim C7: `SE2` composition acts as composition of actions -/

/-- C7: for all planar rigid transforms `a`, `b` and every 2-vector `v`,
`(a * b).act v = a.act (b.act v)`: composition is a homomorphism onto the
action on points (exact equality in the real-number model, hence in
particular approximate equality). -/
theorem C7_compose_act (a b : SE2) (v : Vec2) : (a * b).act v = a.act (b.act v) := by
  unfold SE2.act
  rw [SE2.mul_translation, SE2.mul_rotation, SO2.mul_rot]
  rw [Matrix.mulVec_add, ← Matrix.mulVec_mulVec]
  abel

/-! ### Claim C10: `SE2` constructor dispatch on the rotation argument -/

/-- C10: passing a rotation argument that is neither an `SO2` nor a float —
for example the Python integer `1` — silently stores the identity rotation
`SO2()`; in particular the result differs from the rotation by 1 radian that
conversion of the value would have produced. -/
theorem C10_init_int_rotation :
    (∀ (t : Vec2) (n : ℤ), (SE2.init (some t) (RotArg.int n)).rotation = SO2.idRot) ∧
      SO2.idRot.rot ≠ (SO2.fromAngle 1).rot := by
  refine ⟨fun t n => rfl, fun h => ?_⟩
  have h10 : SO2.idRot.rot 1 0 = (SO2.fromAngle 1).rot 1 0 := by rw [h]
  rw [SO2.fromAngle_rot_10] at h10
  have h0 : SO2.idRot.rot 1 0 = Real.sin 0 := rfl
  have hpos : 0 < Real.sin 1 :=
    Real.sin_pos_of_pos_of_lt_pi one_pos (by linarith [Real.pi_gt_three])
  rw [h0, Real.sin_zero] at h10
  linarith

theorem np_transpose_3x3 (x0 y0 z0 x1 y1 z1 x2 y2 z2 : ℝ) :
    PlanarManipulator.np_transpose [[x0, y0, z0], [x1, y1, z1], [x2, y2, z2]]
      = [[x0, x1, x2], [y0, y1, y2], [z0, z1, z2]] := rfl

theorem mk3R_jacobian (l1 l2 l3 a b c : ℝ) :
    (mk3R l1 l2 l3 a b c).jacobian =
      [[-(l1 * Real.sin a + l2 * Real.sin (a + b) + l3 * Real.sin (a + b + c)),
        -(l2 * Real.sin (a + b) + l3 * Real.sin (a + b + c)),
        -(l3 * Real.sin (a + b + c))],
       [l1 * Real.cos a + l2 * Real.cos (a + b) + l3 * Real.cos (a + b + c),
        l2 * Real.cos (a + b) + l3 * Real.cos (a + b + c),
        l3 * Real.cos (a + b + c)],
       [1, 1, 1]] := by
  have hT0 : (mk3R l1 l2 l3 a b c).get_transformation_from_joint 0
      = ⟨(SO2.fromAngle a).act ![l1, 0], SO2.fromAngle a⟩ := rfl
  have hT1 : (mk3R l1 l2 l3 a b c).get_transformation_from_joint 1
      = ⟨(SO2.fromAngle b).act ![l2, 0], SO2.fromAngle b⟩ := rfl
  have hT2 : (mk3R l1 l2 l3 a b c).get_transformation_from_joint 2
      = ⟨(SO2.fromAngle c).act ![l3, 0], SO2.fromAngle c⟩ := rfl
  have hrange : List.range (mk3R l1 l2 l3 a b c).joint_count = [0, 1, 2] := rfl
  have hS : (mk3R l1 l2 l3 a b c).structure' = ["R", "R", "R"] := rfl
  unfold PlanarManipulator.jacobian
  rw [hrange, mk3R_fk_all_links]
  simp only [List.map_cons, List.map_nil, hT0, hT1, hT2, hS]
  simp only [List.drop_succ_cons, List.drop_zero]
  unfold PlanarManipulator.reduce_transformations
  simp only [List.foldl_cons, List.foldl_nil]
  rw [mk3R_frame1 l1 a, mk3R_frame2 l1 l2 a b, mk3R_frame3 l1 l2 l3 a b c,
      mk3R_frame1 l2 b, mk3R_frame2 l2 l3 b c, mk3R_frame1 l3 c]
  norm_num [List.getD]
  rw [if_neg (by decide : ¬("R" : String) = "P"), if_neg (by decide : ¬("R" : String) = "P"),
      if_neg (by decide : ¬("R" : String) = "P")]
  rw [show SE2.idT.rotation = SO2.fromAngle 0 from rfl]
  simp only [SO2.act_fromAngle, Matrix.cons_val_zero, Matrix.cons_val_one, Matrix.head_cons,
    Real.cos_pi_div_two, Real.sin_pi_div_two, Real.cos_zero, Real.sin_zero,
    Real.cos_add, Real.sin_add, List.cons.injEq, and_true]
  norm_num
  rw [np_transpose_3x3]
  simp only [List.cons.injEq, and_true]
  and_intros <;> ring

theorem mk3R_finite_difference (l1 l2 l3 a b c δ dv0 dv1 dv2 : ℝ) (sel : SE2 → ℝ) :
    (mk3R l1 l2 l3 a b c).finite_difference δ [dv0, dv1, dv2] sel
      = (sel ((mk3R l1 l2 l3 (a + dv0) (b + dv1) (c + dv2)).flange_pose)
          - sel ((mk3R l1 l2 l3 a b c).flange_pose)) / δ := rfl

theorem mk3R_jacobian_fd (l1 l2 l3 a b c δ : ℝ) :
    (mk3R l1 l2 l3 a b c).jacobian_finite_difference δ =
      [[(l1 * Real.cos (a + δ) + l2 * Real.cos (a + δ + b) + l3 * Real.cos (a + δ + b + c)
          - (l1 * Real.cos a + l2 * Real.cos (a + b) + l3 * Real.cos (a + b + c))) / δ,
        (l1 * Real.cos a + l2 * Real.cos (a + (b + δ)) + l3 * Real.cos (a + (b + δ) + c)
          - (l1 * Real.cos a + l2 * Real.cos (a + b) + l3 * Real.cos (a + b + c))) / δ,
        (l3 * Real.cos (a + b + (c + δ)) - l3 * Real.cos (a + b + c)) / δ],
       [(l1 * Real.sin (a + δ) + l2 * Real.sin (a + δ + b) + l3 * Real.sin (a + δ + b + c)
          - (l1 * Real.sin a + l2 * Real.sin (a + b) + l3 * Real.sin (a + b + c))) / δ,
        (l1 * Real.sin a + l2 * Real.sin (a + (b + δ)) + l3 * Real.sin (a + (b + δ) + c)
          - (l1 * Real.sin a + l2 * Real.sin (a + b) + l3 * Real.sin (a + b + c))) / δ,
        (l3 * Real.sin (a + b + (c + δ)) - l3 * Real.sin (a + b + c)) / δ],
       [(SO2.angle (SO2.fromAngle (a + δ + b + c)) - SO2.angle (SO2.fromAngle (a + b + c))) / δ,
        (SO2.angle (SO2.fromAngle (a + (b + δ) + c)) - SO2.angle (SO2.fromAngle (a + b + c))) / δ,
        (SO2.angle (SO2.fromAngle (a + b + (c + δ))) - SO2.angle (SO2.fromAngle (a + b + c))) / δ]] := by
  have hrange : List.range (mk3R l1 l2 l3 a b c).joint_count = [0, 1, 2] := rfl
  unfold PlanarManipulator.jacobian_finite_difference
  rw [hrange]
  simp only [List.map_cons, List.map_nil]
  norm_num
  rw [mk3R_finite_difference l1 l2 l3 a b c δ δ 0 0 (fun t => t.translation 0),
      mk3R_finite_difference l1 l2 l3 a b c δ 0 δ 0 (fun t => t.translation 0),
      mk3R_finite_difference l1 l2 l3 a b c δ 0 0 δ (fun t => t.translation 0),
      mk3R_finite_difference l1 l2 l3 a b c δ δ 0 0 (fun t => t.translation 1),
      mk3R_finite_difference l1 l2 l3 a b c δ 0 δ 0 (fun t => t.translation 1),
      mk3R_finite_difference l1 l2 l3 a b c δ 0 0 δ (fun t => t.translation 1),
      mk3R_finite_difference l1 l2 l3 a b c δ δ 0 0 (fun t => t.rotation.angle),
      mk3R_finite_difference l1 l2 l3 a b c δ 0 δ 0 (fun t => t.rotation.angle),
      mk3R_finite_difference l1 l2 l3 a b c δ 0 0 δ (fun t => t.rotation.angle)]
  rw [mk3R_flange l1 l2 l3 (a + δ) (b + 0) (c + 0),
      mk3R_flange l1 l2 l3 (a + 0) (b + δ) (c + 0),
      mk3R_flange l1 l2 l3 (a + 0) (b + 0) (c + δ),
      mk3R_flange l1 l2 l3 a b c]
  simp only [Matrix.cons_val_zero, Matrix.cons_val_one, Matrix.head_cons]
  norm_num

theorem SO2.angle_fromAngle (r : ℝ) (h1 : -Real.pi < r) (h2 : r < Real.pi) :
    (SO2.fromAngle r).angle = r := by
  unfold SO2.angle
  rw [SO2.fromAngle_rot_00, SO2.fromAngle_rot_10]
  rcases lt_trichotomy r 0 with hr | hr | hr
  · have hsneg : Real.sin r < 0 := by
      have : 0 < Real.sin (-r) := Real.sin_pos_of_pos_of_lt_pi (by linarith) (by linarith)
      rw [Real.sin_neg] at this; linarith
    have harc : Real.arccos (Real.cos r) = -r := by
      rw [← Real.cos_neg]
      exact Real.arccos_cos (by linarith) (by linarith)
    rw [harc]
    unfold npSign
    rw [if_pos hsneg]
    ring
  · subst hr
    simp [npSign, Real.arccos_one]
  · have hspos : 0 < Real.sin r := Real.sin_pos_of_pos_of_lt_pi hr h2
    rw [Real.arccos_cos (by linarith) (by linarith)]
    unfold npSign
    rw [if_neg (by linarith), if_pos hspos]
    ring

theorem C3_jacobian_matches_fd_at_zero :
    List.Forall₂ (List.Forall₂ (fun x y => |x - y| ≤ 1 / 1000))
      ((mk3R 1 1 1 0 0 0).jacobian)
      ((mk3R 1 1 1 0 0 0).jacobian_finite_difference (1 / 1000000)) := by
  rw [mk3R_jacobian, mk3R_jacobian_fd]
  have hdpos : (0:ℝ) < 1 / 1000000 := by norm_num
  have hc1 : Real.cos (1 / 1000000) ≤ 1 := Real.cos_le_one _
  have hc2 : 1 - (1 / 1000000) ^ 2 / 2 ≤ Real.cos (1 / 1000000) :=
    Real.one_sub_sq_div_two_le_cos
  have hs1 : Real.sin (1 / 1000000) < 1 / 1000000 := Real.sin_lt hdpos
  have hs2 : (1 / 1000000 : ℝ) - (1 / 1000000) ^ 3 / 4 < Real.sin (1 / 1000000) :=
    Real.sin_gt_sub_cube hdpos (by norm_num)
  have hpi : (3:ℝ) < Real.pi := Real.pi_gt_three
  have ha1 : SO2.angle (SO2.fromAngle (1 / 1000000)) = 1 / 1000000 :=
    SO2.angle_fromAngle _ (by linarith) (by linarith)
  have ha0 : SO2.angle (SO2.fromAngle 0) = 0 :=
    SO2.angle_fromAngle 0 (by linarith) (by linarith)
  norm_num [ha1, ha0, List.forall₂_cons]
  have hdiv : ∀ x : ℝ, x / (1 / 1000000) = x * 1000000 := fun x => by field_simp
  simp only [hdiv]
  and_intros <;> (rw [abs_le]; exact ⟨by linarith, by linarith⟩)

theorem getD_2_0 (r0 r1 : List ℝ) (x y z : ℝ) :
    ([r0, r1, [x, y, z]].getD 2 []).getD 0 0 = x := rfl

theorem C3_counterexample_branch_cut :
    1 / 1000 <
      |((mk3R 1 1 1 (Real.pi - 1 / 2000000) 0 0).jacobian.getD 2 []).getD 0 0 -
        (((mk3R 1 1 1 (Real.pi - 1 / 2000000) 0 0).jacobian_finite_difference
            (1 / 1000000)).getD 2 []).getD 0 0| := by
  rw [mk3R_jacobian, mk3R_jacobian_fd, getD_2_0, getD_2_0]
  have hpi : (3:ℝ) < Real.pi := Real.pi_gt_three
  have harg1 : Real.pi - 1 / 2000000 + 1 / 1000000 + 0 + 0 = Real.pi + 1 / 2000000 := by
    ring
  have harg2 : Real.pi - 1 / 2000000 + 0 + 0 = Real.pi - 1 / 2000000 := by ring
  rw [harg1, harg2]
  have hpe : SO2.angle (SO2.fromAngle (Real.pi + 1 / 2000000))
      = -(Real.pi - 1 / 2000000) := by
    unfold SO2.angle
    rw [SO2.fromAngle_rot_00, SO2.fromAngle_rot_10]
    have hc : Real.cos (Real.pi + 1 / 2000000) = -Real.cos (1 / 2000000) := by
      rw [Real.cos_add, Real.cos_pi, Real.sin_pi]; ring
    have hs : Real.sin (Real.pi + 1 / 2000000) = -Real.sin (1 / 2000000) := by
      rw [Real.sin_add, Real.cos_pi, Real.sin_pi]; ring
    have hspos : 0 < Real.sin (1 / 2000000) :=
      Real.sin_pos_of_pos_of_lt_pi (by norm_num) (by linarith)
    rw [hc, hs, Real.arccos_neg, Real.arccos_cos (by norm_num) (by linarith)]
    unfold npSign
    rw [if_pos (by linarith : -Real.sin (1 / 2000000) < 0)]
    ring
  have hme : SO2.angle (SO2.fromAngle (Real.pi - 1 / 2000000)) = Real.pi - 1 / 2000000 :=
    SO2.angle_fromAngle _ (by linarith) (by linarith)
  rw [hpe, hme]
  have hdiv : ∀ x : ℝ, x / (1 / 1000000) = x * 1000000 := fun x => by field_simp
  rw [hdiv]
  rw [abs_of_pos (by nlinarith)]
  nlinarith

theorem segIntersects_symm {s1 s2 : Seg} (h : segIntersects s1 s2) : segIntersects s2 s1 := by
  obtain ⟨t, u, ht0, ht1, hu0, hu1, heq⟩ := h
  exact ⟨u, t, hu0, hu1, ht0, ht1, heq.symm⟩

theorem no_int_of_x_gap (s1 s2 : Seg) (A B : ℝ) (hAB : A < B)
    (h11 : s1.1 0 ≤ A) (h12 : s1.2 0 ≤ A) (h21 : B ≤ s2.1 0) (h22 : B ≤ s2.2 0) :
    ¬ segIntersects s1 s2 := by
  rintro ⟨t, u, ht0, ht1, hu0, hu1, heq⟩
  have h := congrFun heq 0
  simp only [segPt] at h
  have e1 : s1.1 0 + t * (s1.2 0 - s1.1 0) ≤ A := by nlinarith
  have e2 : B ≤ s2.1 0 + u * (s2.2 0 - s2.1 0) := by nlinarith
  linarith

theorem SE2.mul_init_translation (t : Vec2) (θ : ℝ) (w : Vec2) :
    ((⟨t, SO2.fromAngle θ⟩ : SE2) * SE2.init (some w) RotArg.none).translation
      = (SO2.fromAngle θ).act w + t := rfl

theorem mk3R_gripper_lines_pi :
    (mk3R 1 1 1 Real.pi 0 0).gripper_lines ⟨![-3, 0], SO2.fromAngle Real.pi⟩
      = ((![-3, 1 / 10], ![-3, -(1 / 10)]),
         (![-3, 1 / 10], ![-(16 / 5), 1 / 10]),
         (![-3, -(1 / 10)], ![-(16 / 5), -(1 / 10)])) := by
  unfold PlanarManipulator.gripper_lines
  simp only [SE2.mul_init_translation, SO2.act_fromAngle]
  simp only [Prod.mk.injEq]
  and_intros <;>
    · funext i
      fin_cases i <;>
        · simp [Real.cos_pi, Real.sin_pi, mk3R, PlanarManipulator.init,
            PlanarManipulator.set_configuration]
          try norm_num

theorem C5_counterexample_folded_base :
    ¬ (mk3R 1 1 1 Real.pi 0 0).in_collision := by
  unfold PlanarManipulator.in_collision
  rw [mk3R_fk_all_links 1 1 1 Real.pi 0 0]
  norm_num [Real.cos_pi, Real.sin_pi]
  rw [mk3R_gripper_lines_pi]
  simp only [show SE2.idT.translation = (fun _ => (0:ℝ)) from rfl,
    show (mk3R 1 1 1 Real.pi 0 0).obstacles = Option.none from rfl]
  refine ⟨?_, by simp⟩
  intro i j hj hij
  interval_cases j
  · omega
  · omega
  · have hi : i = 0 := by omega
    subst hi
    intro h
    simp [linesIntersect] at h
    rcases h with h2 | h2 | h2 | h2 <;>
      exact no_int_of_x_gap _ _ (-2) (-1) (by norm_num) (by norm_num) (by norm_num)
        (by norm_num) (by norm_num) (segIntersects_symm h2)

theorem mk3R_gripper_lines_rot_pi (l1 l2 l3 a b c x y : ℝ) :
    (mk3R l1 l2 l3 a b c).gripper_lines ⟨![x, y], SO2.fromAngle Real.pi⟩
      = ((![x, y + 1 / 10], ![x, y - 1 / 10]),
         (![x, y + 1 / 10], ![x - 1 / 5, y + 1 / 10]),
         (![x, y - 1 / 10], ![x - 1 / 5, y - 1 / 10])) := by
  unfold PlanarManipulator.gripper_lines
  simp only [SE2.mul_init_translation, SO2.act_fromAngle]
  simp only [Prod.mk.injEq]
  and_intros <;>
    · funext i
      fin_cases i <;>
        · simp [Real.cos_pi, Real.sin_pi, mk3R, PlanarManipulator.init,
            PlanarManipulator.set_configuration]
          try norm_num
          try ring

theorem mk3R_gripper_lines_rot_zero (l1 l2 l3 a b c x y : ℝ) :
    (mk3R l1 l2 l3 a b c).gripper_lines ⟨![x, y], SO2.fromAngle 0⟩
      = ((![x, y - 1 / 10], ![x, y + 1 / 10]),
         (![x, y - 1 / 10], ![x + 1 / 5, y - 1 / 10]),
         (![x, y + 1 / 10], ![x + 1 / 5, y + 1 / 10])) := by
  unfold PlanarManipulator.gripper_lines
  simp only [SE2.mul_init_translation, SO2.act_fromAngle]
  simp only [Prod.mk.injEq]
  and_intros <;>
    · funext i
      fin_cases i <;>
        · simp [Real.cos_zero, Real.sin_zero, mk3R, PlanarManipulator.init,
            PlanarManipulator.set_configuration]
          try norm_num
          try ring

theorem C5_collision_cases :
    (mk3R 1 1 1 0 Real.pi 0).in_collision ∧ ¬ (mk3R 1 1 1 0 0 0).in_collision := by
  constructor
  · unfold PlanarManipulator.in_collision
    rw [mk3R_fk_all_links 1 1 1 0 Real.pi 0]
    norm_num [Real.cos_pi, Real.sin_pi]
    rw [mk3R_gripper_lines_rot_pi]
    refine Or.inl ⟨0, 2, by norm_num, by norm_num, ?_⟩
    simp [linesIntersect]
    refine Or.inr (Or.inr (Or.inr ⟨0, 0, le_refl 0, by norm_num, le_refl 0, by norm_num, ?_⟩))
    funext k
    fin_cases k <;> simp [segPt, show SE2.idT.translation = (fun _ => (0:ℝ)) from rfl]
  · unfold PlanarManipulator.in_collision
    rw [mk3R_fk_all_links 1 1 1 0 0 0]
    norm_num [Real.cos_zero, Real.sin_zero]
    rw [mk3R_gripper_lines_rot_zero]
    simp only [show SE2.idT.translation = (fun _ => (0:ℝ)) from rfl,
      show (mk3R 1 1 1 0 0 0).obstacles = Option.none from rfl]
    refine ⟨?_, by simp⟩
    intro i j hj hij
    interval_cases j
    · omega
    · omega
    · have hi : i = 0 := by omega
      subst hi
      intro h
      simp [linesIntersect] at h
      rcases h with h2 | h2 | h2 | h2 <;>
        exact no_int_of_x_gap _ _ 1 2 (by norm_num) (by norm_num) (by norm_num)
          (by norm_num) (by norm_num) h2


theorem finite_difference_st_preserves (r : HRobot) (delta : ℝ) (dv : List ℝ)
    (sel : SE2 → ℝ) (s : Store) :
    s.length ≤ (finite_difference_st r delta dv sel s).2.length ∧
      ∀ j, j < s.length →
        readQ (finite_difference_st r delta dv sel s).2 j = readQ s j := by
  have hs2 : (finite_difference_st r delta dv sel s).2
      = (s ++ [readQ s r.qRef]).set s.length
          (List.zipWith (· + ·) (readQ (s ++ [readQ s r.qRef]) s.length) dv) := rfl
  rw [hs2]
  constructor
  · rw [List.length_set, List.length_append]
    simp
  · intro j hj
    unfold readQ
    rw [List.getD_eq_getElem?_getD, List.getD_eq_getElem?_getD]
    rw [List.getElem?_set_ne (by omega)]
    rw [List.getElem?_append_left hj, ← List.getD_eq_getElem?_getD]

theorem fd_row_st_preserves (r : HRobot) (delta : ℝ) (sel : SE2 → ℝ) (idxs : List ℕ) :
    ∀ s : Store, s.length ≤ (fd_row_st r delta sel idxs s).2.length ∧
      ∀ j, j < s.length → readQ (fd_row_st r delta sel idxs s).2 j = readQ s j := by
  induction idxs with
  | nil => exact fun s => ⟨le_refl _, fun j _ => rfl⟩
  | cons q_i rest ih =>
      intro s
      have hstep := finite_difference_st_preserves r delta
        ((List.range r.structure'.length).map (fun q => if q = q_i then delta else 0)) sel s
      have hrest := ih (finite_difference_st r delta
        ((List.range r.structure'.length).map (fun q => if q = q_i then delta else 0)) sel s).2
      constructor
      · exact le_trans hstep.1 hrest.1
      · intro j hj
        have h1 := hrest.2 j (lt_of_lt_of_le hj hstep.1)
        have h2 := hstep.2 j hj
        exact h1.trans h2

theorem fd_rows_st_preserves (r : HRobot) (delta : ℝ) (sels : List (SE2 → ℝ)) :
    ∀ s : Store, s.length ≤ (fd_rows_st r delta sels s).2.length ∧
      ∀ j, j < s.length → readQ (fd_rows_st r delta sels s).2 j = readQ s j := by
  induction sels with
  | nil => exact fun s => ⟨le_refl _, fun j _ => rfl⟩
  | cons sel rest ih =>
      intro s
      have hstep := fd_row_st_preserves r delta sel (List.range r.structure'.length) s
      have hrest := ih (fd_row_st r delta sel (List.range r.structure'.length) s).2
      constructor
      · exact le_trans hstep.1 hrest.1
      · intro j hj
        have h1 := hrest.2 j (lt_of_lt_of_le hj hstep.1)
        have h2 := hstep.2 j hj
        exact h1.trans h2

/-! ### Claim C8: finite differencing never mutates the `q` of the caller -/

/-- C8: in the store model of Python object state, running the full
finite-difference Jacobian leaves the configuration cell of the caller — and
therefore the flange pose of the caller — unchanged: every perturbation is written
only to the freshly allocated cell of a deep copy. -/
theorem C8_fd_preserves_configuration (r : HRobot) (s : Store) (delta : ℝ)
    (h : r.qRef < s.length) :
    readQ (jacobian_finite_difference_st r delta s).2 r.qRef = readQ s r.qRef ∧
      (toPM r (jacobian_finite_difference_st r delta s).2).flange_pose
        = (toPM r s).flange_pose := by
  have hq := (fd_rows_st_preserves r delta
    [fun t => t.translation 0, fun t => t.translation 1, fun t => t.rotation.angle] s).2
    r.qRef h
  refine ⟨hq, ?_⟩
  unfold toPM
  rw [show readQ (jacobian_finite_difference_st r delta s).2 r.qRef = readQ s r.qRef from hq]

/-- C8 witness: a one-joint robot whose cell `0` holds `q = [0]`, with one
store cell, run at `delta = 1`. -/
theorem C8_fd_preserves_configuration_witness :
    ((HRobot.mk [1] ["R"] SE2.idT 0.2 0.2 0).qRef < ([[0]] : Store).length) ∧
      (readQ (jacobian_finite_difference_st (HRobot.mk [1] ["R"] SE2.idT 0.2 0.2 0) 1
          [[0]]).2 (HRobot.mk [1] ["R"] SE2.idT 0.2 0.2 0).qRef
        = readQ [[0]] (HRobot.mk [1] ["R"] SE2.idT 0.2 0.2 0).qRef ∧
      (toPM (HRobot.mk [1] ["R"] SE2.idT 0.2 0.2 0)
          (jacobian_finite_difference_st (HRobot.mk [1] ["R"] SE2.idT 0.2 0.2 0) 1
            [[0]]).2).flange_pose
        = (toPM (HRobot.mk [1] ["R"] SE2.idT 0.2 0.2 0) [[0]]).flange_pose) :=
  ⟨by norm_num,
   C8_fd_preserves_configuration (HRobot.mk [1] ["R"] SE2.idT 0.2 0.2 0) [[0]] 1
     (by norm_num)⟩
